import Mathlib

/-!
Shallow embedding of `nbdatagen/nbhdf5/generatePredicatesOptional.py`.

The script builds random train/test matrices, optionally assigns group ids
(predicates), computes brute-force nearest neighbours per query, and writes
the arrays to an HDF5 file.  The embedding models:

* random draws as explicit streams (`ℕ → ℕ → ℚ` for `np.random.rand`,
  `ℕ → ℕ` for `np.random.randint`, `ℕ → List ℕ` for the positions used by
  `np.random.choice`), with the numpy range contracts stated as hypotheses
  where they matter;
* float values as exact rationals (the `astype(np.float32)` cast is the
  identity on values in this embedding);
* Euclidean distance by its square (`Real.sqrt` is monotone, so every
  comparison the program makes between distances coincides with the
  comparison of the squares);
* fallible library calls (`np.random.choice` with `replace=False`,
  `torch.topk`, boolean tensor indexing) as `Except String`;
* the output HDF5 file as the list of named datasets written to it.

Control flow follows the source exactly; in particular the top-k /
append block of the per-query loop is indented under the `else` (the
no-predicates) branch in the source, and the embedding reproduces that.
-/

/-- Model of `np.random.rand(rows, cols)` followed by `astype(np.float32)`:
a `rows × cols` matrix whose `(i,j)` entry is draw `r i j` of the stream.
The numpy contract that each draw lies in `[0,1)` is stated as a hypothesis
where a theorem needs it. -/
def randMatrix (r : ℕ → ℕ → ℚ) (rows cols : ℕ) : List (List ℚ) :=
  (List.range rows).map (fun i => (List.range cols).map (fun j => r i j))

/-- Model of `np.repeat(np.arange(1, n // 100 + 1), 100)` from the source:
each group id `g + 1` for `g = 0 .. n / 100 - 1` repeated 100 times. -/
def trainIdsOf (n : ℕ) : List ℕ :=
  (List.range (n / 100)).flatMap (fun g => List.replicate 100 (g + 1))

/-- Model of `np.arange(1, n // 100 + 1)`, the population the per-query
group ids are drawn from in the source. -/
def groupPool (n : ℕ) : List ℕ := List.range' 1 (n / 100)

/-- Modelled from the spec: the population the spec prescribes for the
per-query draw, the full set 1 .. ceil(n/100).  Stated only to be compared
with `groupPool`, the population the code actually uses. -/
def specGroupPool (n : ℕ) : List ℕ := List.range' 1 ((n + 99) / 100)

/-- Drawing `k` elements without replacement from `pool`; the stream `picks`
chooses the position within the remaining pool at each step.  Helper for the
model of `np.random.choice(..., replace=False)`. -/
def sampleNoReplace : ℕ → List ℕ → List ℕ → List ℕ
  | 0, _, _ => []
  | _ + 1, [], _ => []
  | k + 1, h :: t, picks =>
    let j := picks.headD 0 % (h :: t).length
    (h :: t).getD j 0 :: sampleNoReplace k ((h :: t).eraseIdx j) picks.tail

/-- Model of `np.random.choice(pool, size=k, replace=False)`: raises
`ValueError` when `k` exceeds the population size (in particular on an empty
population, since every call in the source has `k ≥ 1`). -/
def npChoice (pool : List ℕ) (k : ℕ) (picks : List ℕ) : Except String (List ℕ) :=
  if pool.length < k then
    .error "Cannot take a larger sample than population when replace is False"
  else
    .ok (sampleNoReplace k pool picks)

/-- The `test_ids` construction loop of the source, from query index `i` with
`k` queries remaining: `num_ids = np.random.randint(1, 6)` (a value in
`1..5`, modelled as `1 + randNum i % 5`) followed by
`np.random.choice(np.arange(1, n // 100 + 1), size=num_ids, replace=False)`. -/
def buildTestIdsAux (n : ℕ) (randNum : ℕ → ℕ) (randPick : ℕ → List ℕ) :
    ℕ → ℕ → Except String (List (List ℕ))
  | _, 0 => .ok []
  | i, k + 1 => do
    let s ← npChoice (groupPool n) (1 + randNum i % 5) (randPick i)
    let rest ← buildTestIdsAux n randNum randPick (i + 1) k
    .ok (s :: rest)

/-- The full `test_ids` list: one group-id draw per query, in query order. -/
def buildTestIds (n x : ℕ) (randNum : ℕ → ℕ) (randPick : ℕ → List ℕ) :
    Except String (List (List ℕ)) :=
  buildTestIdsAux n randNum randPick 0 x

/-- Squared Euclidean distance between two vectors; stands in for the
Euclidean distance computed by `torch.cdist` (square root omitted: it is
monotone, so all comparisons agree). -/
def sqDist (u v : List ℚ) : ℚ := ((u.zip v).map (fun a => (a.1 - a.2) ^ 2)).sum

/-- Comparison of (position, distance) pairs by distance, the order used by
the top-k selection. -/
def distLE (a b : ℕ × ℚ) : Prop := a.2 ≤ b.2

instance : DecidableRel distLE := fun a b => inferInstanceAs (Decidable (a.2 ≤ b.2))

instance : IsTotal (ℕ × ℚ) distLE := ⟨fun a b => le_total a.2 b.2⟩

instance : IsTrans (ℕ × ℚ) distLE := ⟨fun _ _ _ => le_trans⟩

/-- Model of `torch.topk(dists, k, largest=False).indices`: the positions of
the `k` smallest entries, listed in ascending order of entry value; raises
when `k` exceeds the number of entries. -/
def topkSmallest (dists : List ℚ) (k : ℕ) : Except String (List ℕ) :=
  if k ≤ dists.length then
    .ok (((List.insertionSort distLE dists.enum).take k).map Prod.fst)
  else
    .error "selected index k out of range"

/-- Body of the per-query loop, exactly as the source is indented: with
predicates the mask, the filtered view and the global indices are computed
(boolean indexing `train_tensor[mask]` raises when the mask length differs
from the number of train rows) but nothing is appended (`none`), because the
top-k block sits under the `else` branch; without predicates the whole train
set is the filtered set and a row (`some _`) is appended: the top-100 global
indices when the set is nonempty, a sentinel row of −1 otherwise. -/
def queryStep (train : List (List ℚ)) (train_ids : List ℕ) (usePredicates : Bool)
    (query_ids : List ℕ) (q : List ℚ) : Except String (Option (List ℤ)) :=
  if usePredicates then
    let mask := train_ids.map (fun g => decide (g ∈ query_ids))
    if mask.length = train.length then
      .ok none
    else
      .error "The shape of the mask does not match the shape of the indexed tensor"
  else
    if 0 < train.length then
      match topkSmallest (train.map (sqDist q)) 100 with
      | .ok idxs => .ok (some (idxs.map (fun i : ℕ => (i : ℤ))))
      | .error e => .error e
    else
      .ok (some (List.replicate 100 (-1 : ℤ)))

/-- The KNN loop over the remaining test queries, starting at query index
`i`; rows are appended in query order whenever the body appends one. -/
def knnLoopAux (train : List (List ℚ)) (train_ids : List ℕ) (test_ids : List (List ℕ))
    (usePredicates : Bool) : ℕ → List (List ℚ) → Except String (List (List ℤ))
  | _, [] => .ok []
  | i, q :: qs => do
    let r ← queryStep train train_ids usePredicates (test_ids.getD i []) q
    let rest ← knnLoopAux train train_ids test_ids usePredicates (i + 1) qs
    match r with
    | some row => .ok (row :: rest)
    | none => .ok rest

/-- One dataset inside the HDF5 output file, tagged with the dtype the
source gives it (`float32` matrix, plain integer sequence, `int32` matrix,
or variable-length integer array per entry). -/
inductive Dataset where
  | floatMat : List (List ℚ) → Dataset
  | intSeq : List ℕ → Dataset
  | intMat : List (List ℤ) → Dataset
  | vlenIntSeq : List (List ℕ) → Dataset
deriving DecidableEq

/-- The whole `generate_knn_dataset(n, p, x, output_file, use_predicates)`
routine.  The output file is modelled as the list of named datasets written
to it; an `Except.error` means an uncaught exception before the file is
written, so no output is produced. -/
def generate_knn_dataset (n p x : ℕ) (usePredicates : Bool)
    (randTrain randTest : ℕ → ℕ → ℚ) (randNum : ℕ → ℕ) (randPick : ℕ → List ℕ) :
    Except String (List (String × Dataset)) := do
  let train_data := randMatrix randTrain n p
  let test_data := randMatrix randTest x p
  let train_ids := if usePredicates then trainIdsOf n else []
  let test_ids ← if usePredicates then buildTestIds n x randNum randPick else .ok []
  let neighbors ← knnLoopAux train_data train_ids test_ids usePredicates 0 test_data
  .ok ([("train", Dataset.floatMat train_data),
        ("test", Dataset.floatMat test_data),
        ("neighbors", Dataset.intMat neighbors)] ++
       (if usePredicates then
          [("train_ids", Dataset.intSeq train_ids),
           ("test_ids", Dataset.vlenIntSeq test_ids)]
        else []))

/-- Projection: the rows of the dataset named `neighbors` in the output
file (the empty matrix when absent). -/
def neighborsOf (f : List (String × Dataset)) : List (List ℤ) :=
  match f.lookup "neighbors" with
  | some (Dataset.intMat rows) => rows
  | _ => []

/-- All-zero stand-in for the uniform random stream (0 lies in the numpy
range contract `[0,1)`); used to instantiate theorems at concrete inputs. -/
def zeroRand : ℕ → ℕ → ℚ := fun _ _ => 0

/-- All-zero stand-in for the `np.random.randint(1, 6)` stream (it yields
`num_ids = 1` at every query). -/
def zeroNum : ℕ → ℕ := fun _ => 0

/-- Empty position stream for the without-replacement draw (every pick
takes position 0 of the remaining pool). -/
def zeroPick : ℕ → List ℕ := fun _ => []

/-- Output file of the concrete run with `n = 100`, `p = 1`, `x = 1`,
predicates enabled, and the all-zero random streams; used to instantiate
theorems at a concrete successful invocation. -/
def sampleFile100 : List (String × Dataset) :=
  [("train", Dataset.floatMat (randMatrix zeroRand 100 1)),
   ("test", Dataset.floatMat (randMatrix zeroRand 1 1)),
   ("neighbors", Dataset.intMat []),
   ("train_ids", Dataset.intSeq (trainIdsOf 100)),
   ("test_ids", Dataset.vlenIntSeq [[1]])]

/-! Helper lemmas about the embedded operations. -/

/-- The top-k selection, on success, returns exactly `k` distinct in-range
positions, listed in ascending order of entry value, and every selected
entry is at most every entry left out. -/
theorem topkSmallest_spec (dists : List ℚ) (k : ℕ) (hk : k ≤ dists.length) :
    ∃ l, topkSmallest dists k = Except.ok l ∧ l.length = k ∧ l.Nodup ∧
      (∀ i ∈ l, i < dists.length) ∧
      l.Pairwise (fun i j => dists.getD i 0 ≤ dists.getD j 0) ∧
      (∀ i ∈ l, ∀ j, j < dists.length → j ∉ l → dists.getD i 0 ≤ dists.getD j 0) := by
  classical
  set s := List.insertionSort distLE dists.enum with hs
  have hperm : s.Perm dists.enum := List.perm_insertionSort _ _
  have hsort : List.Pairwise distLE s := List.sorted_insertionSort _ _
  have hslen : s.length = dists.length := by
    rw [hperm.length_eq, List.enum_length]
  have hfst : (s.map Prod.fst).Perm (List.range dists.length) := by
    have h := hperm.map Prod.fst
    rwa [List.enum_map_fst] at h
  have hnodup : (s.map Prod.fst).Nodup := hfst.nodup_iff.mpr (List.nodup_range _)
  have hpairmem : ∀ a ∈ s, a.1 < dists.length ∧ dists.getD a.1 0 = a.2 := by
    intro a ha
    have ha2 : a ∈ dists.enum := hperm.mem_iff.mp ha
    have h3 := List.mem_enum_iff_getElem?.mp ha2
    obtain ⟨hlt, hv⟩ := List.getElem?_eq_some.mp h3
    refine ⟨hlt, ?_⟩
    rw [List.getD_eq_getElem?_getD, h3]
    rfl
  have hsort2 : List.Pairwise distLE (s.take k ++ s.drop k) := by
    rw [List.take_append_drop]
    exact hsort
  refine ⟨(s.take k).map Prod.fst, ?_, ?_, ?_, ?_, ?_, ?_⟩
  · simp [topkSmallest, hk, hs]
  · rw [List.length_map, List.length_take, hslen]
    exact min_eq_left hk
  · exact List.Nodup.sublist ((List.take_sublist _ _).map _) hnodup
  · intro i hi
    obtain ⟨a, ha, rfl⟩ := List.mem_map.mp hi
    exact (hpairmem a (List.mem_of_mem_take ha)).1
  · apply List.pairwise_map.mpr
    have h1 : (s.take k).Pairwise distLE := List.Pairwise.sublist (List.take_sublist _ _) hsort
    refine h1.imp_of_mem ?_
    intro a b ha hb hab
    have ha2 := (hpairmem a (List.mem_of_mem_take ha)).2
    have hb2 := (hpairmem b (List.mem_of_mem_take hb)).2
    rw [ha2, hb2]
    exact hab
  · intro i hi j hj hjl
    obtain ⟨a, ha, rfl⟩ := List.mem_map.mp hi
    have hjs : j ∈ s.map Prod.fst := hfst.mem_iff.mpr (List.mem_range.mpr hj)
    obtain ⟨b, hb, hbj⟩ := List.mem_map.mp hjs
    have hb2 : b ∈ s.take k ++ s.drop k := by
      rw [List.take_append_drop]
      exact hb
    rcases List.mem_append.mp hb2 with hbt | hbd
    · exact absurd (hbj ▸ List.mem_map_of_mem Prod.fst hbt) hjl
    · have hab := (List.pairwise_append.mp hsort2).2.2 a ha b hbd
      have ha2 := (hpairmem a (List.mem_of_mem_take ha)).2
      have hbv := (hpairmem b (List.mem_of_mem_drop hbd)).2
      rw [ha2, ← hbj, hbv]
      exact hab

/-- Length of the run-concatenation underlying `trainIdsOf`. -/
lemma trainIds_blocks_length (k : ℕ) :
    ((List.range k).flatMap (fun g => List.replicate 100 (g + 1))).length = 100 * k := by
  induction k with
  | zero => simp
  | succ m ih =>
    rw [List.range_succ, List.flatMap_append, List.length_append, ih]
    simp [Nat.mul_succ]

/-- The train group-id sequence has `100 * (n / 100)` entries. -/
lemma trainIdsOf_length (n : ℕ) : (trainIdsOf n).length = 100 * (n / 100) :=
  trainIds_blocks_length (n / 100)

/-- Entry characterisation of the run-concatenation underlying `trainIdsOf`. -/
lemma trainIds_blocks_getD (k : ℕ) : ∀ i, i < 100 * k →
    ((List.range k).flatMap (fun g => List.replicate 100 (g + 1))).getD i 0 = i / 100 + 1 := by
  induction k with
  | zero => intro i h; omega
  | succ m ih =>
    intro i hi
    rw [List.range_succ, List.flatMap_append]
    by_cases h : i < 100 * m
    · rw [List.getD_append _ _ _ _ (by rw [trainIds_blocks_length]; exact h)]
      exact ih i h
    · have h1 : 100 * m ≤ i := le_of_not_lt h
      rw [List.getD_append_right _ _ _ _ (by rw [trainIds_blocks_length]; exact h1)]
      rw [trainIds_blocks_length]
      have h2 : i - 100 * m < 100 := by omega
      have h3 : ([m].flatMap (fun g => List.replicate 100 (g + 1))) =
          List.replicate 100 (m + 1) := by simp
      rw [h3, List.getD_eq_getElem _ _ (by simpa using h2), List.getElem_replicate]
      omega

/-- Vector `i` of the train set is stamped with group id `i / 100 + 1`. -/
lemma trainIdsOf_getD (n : ℕ) : ∀ i, i < (trainIdsOf n).length →
    (trainIdsOf n).getD i 0 = i / 100 + 1 := by
  intro i hi
  exact trainIds_blocks_getD (n / 100) i (by rw [← trainIds_blocks_length (n / 100)]; exact hi)

/-- The group ids appearing in the train sequence are exactly `1 .. n / 100`. -/
lemma trainIdsOf_mem (n g : ℕ) : g ∈ trainIdsOf n ↔ 1 ≤ g ∧ g ≤ n / 100 := by
  simp only [trainIdsOf, List.mem_flatMap, List.mem_range, List.mem_replicate]
  constructor
  · rintro ⟨a, ha, -, rfl⟩
    omega
  · rintro ⟨h1, h2⟩
    exact ⟨g - 1, by omega, by omega, by omega⟩

/-- Everything drawn without replacement comes from the population. -/
lemma sampleNoReplace_subset : ∀ (k : ℕ) (pool picks : List ℕ),
    ∀ a ∈ sampleNoReplace k pool picks, a ∈ pool := by
  intro k
  induction k with
  | zero => intro pool picks a ha; simp [sampleNoReplace] at ha
  | succ m ih =>
    intro pool picks a ha
    match pool with
    | [] => simp [sampleNoReplace] at ha
    | h :: t =>
      rw [sampleNoReplace] at ha
      have hj : picks.headD 0 % (h :: t).length < (h :: t).length :=
        Nat.mod_lt _ (by simp)
      rcases List.mem_cons.mp ha with h1 | h2
      · rw [h1, List.getD_eq_getElem _ _ hj]
        exact List.getElem_mem hj
      · exact (List.eraseIdx_sublist (h :: t) _).mem (ih _ _ a h2)

/-- A draw of `k` from a population of at least `k` has exactly `k` entries. -/
lemma sampleNoReplace_length : ∀ (k : ℕ) (pool picks : List ℕ), k ≤ pool.length →
    (sampleNoReplace k pool picks).length = k := by
  intro k
  induction k with
  | zero => intro pool picks _; rfl
  | succ m ih =>
    intro pool picks hk
    match pool with
    | [] => simp at hk
    | h :: t =>
      rw [sampleNoReplace, List.length_cons]
      have hj : (picks.headD 0 % (h :: t).length) < (h :: t).length :=
        Nat.mod_lt _ (by simp)
      rw [ih _ picks.tail (by rw [List.length_eraseIdx, if_pos hj]; simp at hk ⊢; omega)]

/-- Removing position `j` from a duplicate-free list removes its value. -/
lemma getD_not_mem_eraseIdx : ∀ (l : List ℕ) (j : ℕ), l.Nodup → j < l.length →
    l.getD j 0 ∉ l.eraseIdx j := by
  intro l
  induction l with
  | nil => intro j _ hj; simp at hj
  | cons h t ih =>
    intro j hnd hj
    cases j with
    | zero =>
      simpa using (List.nodup_cons.mp hnd).1
    | succ m =>
      rw [List.eraseIdx_cons_succ, List.getD_cons_succ]
      intro hmem
      have hm : m < t.length := by simpa using hj
      have htm : t.getD m 0 ∈ t := by
        rw [List.getD_eq_getElem _ _ hm]
        exact List.getElem_mem hm
      rcases List.mem_cons.mp hmem with heq | hmem2
      · exact (List.nodup_cons.mp hnd).1 (heq ▸ htm)
      · exact ih m (List.nodup_cons.mp hnd).2 hm hmem2

/-- Drawing without replacement from a duplicate-free population yields
distinct values. -/
lemma sampleNoReplace_nodup : ∀ (k : ℕ) (pool picks : List ℕ), pool.Nodup →
    (sampleNoReplace k pool picks).Nodup := by
  intro k
  induction k with
  | zero => intro pool picks _; simp [sampleNoReplace]
  | succ m ih =>
    intro pool picks hnd
    match pool with
    | [] => simp [sampleNoReplace]
    | h :: t =>
      rw [sampleNoReplace, List.nodup_cons]
      have hj : (picks.headD 0 % (h :: t).length) < (h :: t).length :=
        Nat.mod_lt _ (by simp)
      refine ⟨fun hmem => ?_, ih _ _ (List.Nodup.eraseIdx _ hnd)⟩
      exact getD_not_mem_eraseIdx (h :: t) _ hnd hj
        (sampleNoReplace_subset m _ _ _ hmem)

/-- The choice population is `np.arange(1, n // 100 + 1)`, of size `n / 100`. -/
lemma groupPool_length (n : ℕ) : (groupPool n).length = n / 100 := List.length_range' _ _ _

/-- The choice population has no repeated ids. -/
lemma groupPool_nodup (n : ℕ) : (groupPool n).Nodup := List.nodup_range' _ _

/-- Invariant of the `test_ids` construction loop: on success it yields one
set per remaining query, each of 1 to 5 distinct ids from `1 .. n / 100`. -/
lemma buildTestIdsAux_spec (n : ℕ) (rnum : ℕ → ℕ) (rpick : ℕ → List ℕ) :
    ∀ (k i : ℕ) (tids : List (List ℕ)),
      buildTestIdsAux n rnum rpick i k = Except.ok tids →
      tids.length = k ∧ ∀ s ∈ tids, (1 ≤ s.length ∧ s.length ≤ 5) ∧ s.Nodup ∧
        ∀ g ∈ s, 1 ≤ g ∧ g ≤ n / 100 := by
  intro k
  induction k with
  | zero =>
    intro i tids h
    simp only [buildTestIdsAux] at h
    cases h
    simp
  | succ m ih =>
    intro i tids h
    cases hc : npChoice (groupPool n) (1 + rnum i % 5) (rpick i) with
    | error e =>
      rw [buildTestIdsAux, hc] at h
      exact Except.noConfusion h
    | ok s =>
      cases hrest : buildTestIdsAux n rnum rpick (i + 1) m with
      | error e =>
        rw [buildTestIdsAux, hc, hrest] at h
        exact Except.noConfusion h
      | ok rest =>
        rw [buildTestIdsAux, hc, hrest] at h
        have h2 : s :: rest = tids := by
          have h3 : (Except.ok (s :: rest) : Except String (List (List ℕ))) = Except.ok tids := h
          exact Except.ok.inj h3
        subst h2
        unfold npChoice at hc
        by_cases hp : (groupPool n).length < 1 + rnum i % 5
        · rw [if_pos hp] at hc
          exact Except.noConfusion hc
        · rw [if_neg hp] at hc
          have hs := Except.ok.inj hc
          obtain ⟨hlen, hall⟩ := ih (i + 1) rest hrest
          have hnum : 1 + rnum i % 5 ≤ (groupPool n).length := by omega
          constructor
          · simp [hlen]
          · intro t ht
            rcases List.mem_cons.mp ht with rfl | ht2
            · refine ⟨?_, ?_, ?_⟩
              · rw [← hs, sampleNoReplace_length _ _ _ hnum]
                have h5 : rnum i % 5 < 5 := Nat.mod_lt _ (by norm_num)
                omega
              · rw [← hs]
                exact sampleNoReplace_nodup _ _ _ (groupPool_nodup n)
              · intro g hg
                rw [← hs] at hg
                have hmem := sampleNoReplace_subset _ _ _ g hg
                rw [groupPool, List.mem_range'_1] at hmem
                omega
            · exact hall t ht2

/-- The distance list used by the selection, read back at a train index. -/
lemma map_sqDist_getD (train : List (List ℚ)) (q : List ℚ) (i : ℕ) (h : i < train.length) :
    (train.map (sqDist q)).getD i 0 = sqDist q (train.getD i []) := by
  rw [List.getD_eq_getElem _ _ (by rwa [List.length_map]), List.getElem_map,
    List.getD_eq_getElem _ _ h]

/-- Without predicates and with at least 100 train vectors, the loop
succeeds and appends one row of 100 distinct in-range indices per query. -/
lemma knnLoopAux_nopred (train : List (List ℚ)) (train_ids : List ℕ)
    (test_ids : List (List ℕ)) (hn : 100 ≤ train.length) :
    ∀ (qs : List (List ℚ)) (i : ℕ), ∃ rows,
      knnLoopAux train train_ids test_ids false i qs = Except.ok rows ∧
      rows.length = qs.length ∧
      ∀ row ∈ rows, row.length = 100 ∧ row.Nodup ∧
        ∀ e ∈ row, 0 ≤ e ∧ e < (train.length : ℤ) := by
  intro qs
  induction qs with
  | nil =>
    intro i
    exact ⟨[], rfl, rfl, by simp⟩
  | cons q qs ih =>
    intro i
    obtain ⟨rows, hrows, hlen, hprops⟩ := ih (i + 1)
    have h100 : 100 ≤ (train.map (sqDist q)).length := by rwa [List.length_map]
    obtain ⟨l, hl, hllen, hnd, hmem, hpw, hexcl⟩ := topkSmallest_spec _ 100 h100
    have hstep : queryStep train train_ids false (test_ids.getD i []) q =
        Except.ok (some (List.map (fun j : ℕ => (j : ℤ)) l)) := by
      unfold queryStep
      rw [if_neg (by simp), if_pos (show 0 < train.length by omega), hl]
    refine ⟨List.map (fun j : ℕ => (j : ℤ)) l :: rows, ?_, ?_, ?_⟩
    · rw [knnLoopAux, hstep, hrows]
      rfl
    · simp only [List.length_cons, hlen]
    · intro row hrow
      rcases List.mem_cons.mp hrow with rfl | h2
      · refine ⟨by rw [List.length_map, hllen], ?_, ?_⟩
        · exact List.Nodup.map Nat.cast_injective hnd
        · intro e he
          obtain ⟨j, hj, rfl⟩ := List.mem_map.mp he
          have hje := hmem j hj
          rw [List.length_map] at hje
          constructor
          · exact_mod_cast Nat.zero_le j
          · exact_mod_cast hje
      · exact hprops row h2

/-- The generated train (or test) matrix has one row per requested vector. -/
lemma randMatrix_length (r : ℕ → ℕ → ℚ) (a b : ℕ) : (randMatrix r a b).length = a := by
  simp [randMatrix]

/-- Each generated row has the requested dimensionality and, under the
numpy range contract, entries in `[0,1)`. -/
lemma randMatrix_rows (r : ℕ → ℕ → ℚ) (a b : ℕ) (hr : ∀ i j, 0 ≤ r i j ∧ r i j < 1) :
    ∀ row ∈ randMatrix r a b, row.length = b ∧ ∀ v ∈ row, 0 ≤ v ∧ v < 1 := by
  intro row hrow
  obtain ⟨i, hi, rfl⟩ := List.mem_map.mp hrow
  refine ⟨by simp, ?_⟩
  intro v hv
  obtain ⟨j, hj, rfl⟩ := List.mem_map.mp hv
  exact hr i j

/-- Unfolding of the routine in predicate mode. -/
lemma generate_pred_eq (n p x : ℕ) (rt rs : ℕ → ℕ → ℚ) (rnum : ℕ → ℕ)
    (rpick : ℕ → List ℕ) :
    generate_knn_dataset n p x true rt rs rnum rpick =
      Except.bind (buildTestIds n x rnum rpick) (fun tids =>
        Except.bind (knnLoopAux (randMatrix rt n p) (trainIdsOf n) tids true 0
            (randMatrix rs x p))
          (fun nb => Except.ok [("train", Dataset.floatMat (randMatrix rt n p)),
            ("test", Dataset.floatMat (randMatrix rs x p)),
            ("neighbors", Dataset.intMat nb),
            ("train_ids", Dataset.intSeq (trainIdsOf n)),
            ("test_ids", Dataset.vlenIntSeq tids)])) := rfl

/-- Unfolding of the routine without predicates. -/
lemma generate_nopred_eq (n p x : ℕ) (rt rs : ℕ → ℕ → ℚ) (rnum : ℕ → ℕ)
    (rpick : ℕ → List ℕ) :
    generate_knn_dataset n p x false rt rs rnum rpick =
      Except.bind (knnLoopAux (randMatrix rt n p) [] [] false 0 (randMatrix rs x p))
        (fun nb => Except.ok [("train", Dataset.floatMat (randMatrix rt n p)),
          ("test", Dataset.floatMat (randMatrix rs x p)),
          ("neighbors", Dataset.intMat nb)]) := rfl

/-! Claim theorems. -/

set_option maxRecDepth 4000

/-- Claim C1 (code bug): the claim says every invocation with predicates
reports, for each query, a neighbors row of global indices from the query's
groups, or a sentinel row when no train vector is eligible.  The code never
appends any row in the predicate path (the top-k and append block is
indented under the `else` branch of `if use_predicates`), so a predicate run
that succeeds writes an empty `neighbors` dataset: here a run with
`n = 200`, `p = 1`, `x = 2` queries succeeds yet produces no rows at all. -/
theorem predicates_row_never_appended :
    (generate_knn_dataset 200 1 2 true zeroRand zeroRand zeroNum zeroPick).map
        neighborsOf = Except.ok [] := by rfl

/-- Claim C2 (code bug): the claim says every invocation produces exactly
one neighbors row per query (an `x × 100` matrix).  With predicates enabled
the loop appends nothing, so a successful run with `x = 1` query produces a
`neighbors` dataset with 0 rows instead of 1. -/
theorem predicates_produce_no_neighbor_rows :
    (generate_knn_dataset 100 1 1 true zeroRand zeroRand zeroNum zeroPick).map
        neighborsOf = Except.ok [] ∧
    (generate_knn_dataset 100 1 1 true zeroRand zeroRand zeroNum zeroPick).map
        (fun f => (neighborsOf f).length) = Except.ok 0 := by
  constructor <;> rfl

/-- Claim C3: for every query computed without predicates (train set of at
least 100 vectors), the appended row consists of exactly 100 distinct
indices into the train set, listed in non-decreasing order of (squared)
Euclidean distance to the query, and every reported distance is at most the
distance to every train vector left out of the row. -/
theorem knn_row_without_predicates (train : List (List ℚ)) (train_ids : List ℕ)
    (query_ids : List ℕ) (q : List ℚ) (h100 : 100 ≤ train.length) :
    ∃ idxs, queryStep train train_ids false query_ids q =
        Except.ok (some (List.map (fun i : ℕ => (i : ℤ)) idxs)) ∧
      idxs.length = 100 ∧ idxs.Nodup ∧ (∀ i ∈ idxs, i < train.length) ∧
      idxs.Pairwise (fun i j => sqDist q (train.getD i []) ≤ sqDist q (train.getD j [])) ∧
      (∀ i ∈ idxs, ∀ j, j < train.length → j ∉ idxs →
        sqDist q (train.getD i []) ≤ sqDist q (train.getD j [])) := by
  have h100m : 100 ≤ (train.map (sqDist q)).length := by rwa [List.length_map]
  obtain ⟨l, hl, hlen, hnd, hmem, hpw, hexcl⟩ := topkSmallest_spec _ 100 h100m
  have hmem2 : ∀ i ∈ l, i < train.length := by
    intro i hi
    have h2 := hmem i hi
    rwa [List.length_map] at h2
  refine ⟨l, ?_, hlen, hnd, hmem2, ?_, ?_⟩
  · unfold queryStep
    rw [if_neg (by simp), if_pos (by omega), hl]
  · refine hpw.imp_of_mem ?_
    intro a b ha hb hab
    rwa [map_sqDist_getD _ _ _ (hmem2 a ha), map_sqDist_getD _ _ _ (hmem2 b hb)] at hab
  · intro i hi j hj hjl
    have h2 := hexcl i hi j (by rwa [List.length_map]) hjl
    rwa [map_sqDist_getD _ _ _ (hmem2 i hi), map_sqDist_getD _ _ _ hj] at h2

/-- Witness for C3: the theorem instantiated at a concrete 100-vector train
set with all hypotheses discharged. -/
theorem knn_row_without_predicates_witness :
    ∃ idxs, queryStep (List.replicate 100 [(0 : ℚ)]) [] false [] [0] =
        Except.ok (some (List.map (fun i : ℕ => (i : ℤ)) idxs)) ∧
      idxs.length = 100 ∧ idxs.Nodup ∧
      (∀ i ∈ idxs, i < (List.replicate 100 [(0 : ℚ)]).length) ∧
      idxs.Pairwise (fun i j =>
        sqDist [0] ((List.replicate 100 [(0 : ℚ)]).getD i []) ≤
          sqDist [0] ((List.replicate 100 [(0 : ℚ)]).getD j [])) ∧
      (∀ i ∈ idxs, ∀ j, j < (List.replicate 100 [(0 : ℚ)]).length → j ∉ idxs →
        sqDist [0] ((List.replicate 100 [(0 : ℚ)]).getD i []) ≤
          sqDist [0] ((List.replicate 100 [(0 : ℚ)]).getD j [])) :=
  knn_row_without_predicates (List.replicate 100 [(0 : ℚ)]) [] [] [0] (by simp)

/-- Claim C4 counterexample: the claim says the train group-id sequence has
length exactly `n` for every positive `n` and covers ids `1 .. ceil(n/100)`.
At `n = 150` the sequence the code builds has length 100, not 150, and the
id `2 = ceil(150/100)` never occurs. -/
theorem train_ids_length_counterexample :
    (trainIdsOf 150).length ≠ 150 ∧ (trainIdsOf 150).length = 100 ∧
      2 ∉ trainIdsOf 150 := by
  refine ⟨by decide, by decide, by decide⟩

/-- Claim C4 as amended: the train group-id sequence has length
`100 * (n / 100)` (the remainder `n mod 100` of the train vectors is left
unstamped), entry `i` carries id `i / 100 + 1` (consecutive blocks of 100
equal ids, strictly increasing across blocks), and the ids that occur are
exactly `1 .. floor(n/100)`. -/
theorem train_group_ids_structure (n : ℕ) :
    (trainIdsOf n).length = 100 * (n / 100) ∧
    (∀ i, i < (trainIdsOf n).length → (trainIdsOf n).getD i 0 = i / 100 + 1) ∧
    (∀ g, g ∈ trainIdsOf n ↔ 1 ≤ g ∧ g ≤ n / 100) :=
  ⟨trainIdsOf_length n, trainIdsOf_getD n, fun g => trainIdsOf_mem n g⟩

/-- Witness for C4 at `n = 250`: length 200, entry 120 has id 2, and id 2
occurs since `2 ≤ 250 / 100`. -/
theorem train_group_ids_structure_witness :
    (trainIdsOf 250).length = 100 * (250 / 100) ∧
    (trainIdsOf 250).getD 120 0 = 120 / 100 + 1 ∧
    (2 ∈ trainIdsOf 250 ↔ 1 ≤ 2 ∧ 2 ≤ 250 / 100) :=
  ⟨(train_group_ids_structure 250).1,
   (train_group_ids_structure 250).2.1 120 (by decide),
   (train_group_ids_structure 250).2.2 2⟩

/-- Claim C5 counterexample: the claim says the per-query ids are drawn from
the full set `1 .. ceil(n/100)`.  The population the code passes to the
draw is `np.arange(1, n // 100 + 1) = 1 .. floor(n/100)`: at `n = 150` the
spec population contains id 2 but the code population does not, so id 2 can
never be drawn. -/
theorem group_pool_counterexample :
    groupPool 150 ≠ specGroupPool 150 ∧ 2 ∈ specGroupPool 150 ∧
      2 ∉ groupPool 150 := by
  refine ⟨by decide, by decide, by decide⟩

/-- Claim C5 as amended: whenever the `test_ids` construction succeeds it
yields one group-id set per query, each with between 1 and 5 distinct
members drawn without replacement from `1 .. floor(n/100)` (the draw raises
instead when the requested size exceeds `floor(n/100)`). -/
theorem test_group_sets_structure (n x : ℕ) (rnum : ℕ → ℕ) (rpick : ℕ → List ℕ)
    (tids : List (List ℕ)) (h : buildTestIds n x rnum rpick = Except.ok tids) :
    tids.length = x ∧ ∀ s ∈ tids, (1 ≤ s.length ∧ s.length ≤ 5) ∧ s.Nodup ∧
      ∀ g ∈ s, 1 ≤ g ∧ g ≤ n / 100 :=
  buildTestIdsAux_spec n rnum rpick x 0 tids h

/-- Witness for C5 at `n = 500`, `x = 1` with the all-zero streams, whose
construction succeeds with the single set containing id 1. -/
theorem test_group_sets_structure_witness :
    ([[1]] : List (List ℕ)).length = 1 ∧ ∀ s ∈ ([[1]] : List (List ℕ)),
      (1 ≤ s.length ∧ s.length ≤ 5) ∧ s.Nodup ∧ ∀ g ∈ s, 1 ≤ g ∧ g ≤ 500 / 100 :=
  test_group_sets_structure 500 1 zeroNum zeroPick [[1]] (by rfl)

/-- Claim C6: under the numpy contract that every uniform draw lies in
`[0,1)`, the generated train matrix has exactly `n` rows of `p` entries and
the test matrix exactly `x` rows of `p` entries, every entry in `[0,1)`
(values are modelled exactly; the `float32` cast is the identity on
values in this embedding). -/
theorem random_matrices_shape_and_range (n p x : ℕ) (rt rs : ℕ → ℕ → ℚ)
    (hrt : ∀ i j, 0 ≤ rt i j ∧ rt i j < 1) (hrs : ∀ i j, 0 ≤ rs i j ∧ rs i j < 1) :
    ((randMatrix rt n p).length = n ∧
      ∀ row ∈ randMatrix rt n p, row.length = p ∧ ∀ v ∈ row, 0 ≤ v ∧ v < 1) ∧
    ((randMatrix rs x p).length = x ∧
      ∀ row ∈ randMatrix rs x p, row.length = p ∧ ∀ v ∈ row, 0 ≤ v ∧ v < 1) :=
  ⟨⟨randMatrix_length rt n p, randMatrix_rows rt n p hrt⟩,
   ⟨randMatrix_length rs x p, randMatrix_rows rs x p hrs⟩⟩

/-- Witness for C6 at `n = 3`, `p = 2`, `x = 4` with the all-zero stream. -/
theorem random_matrices_shape_and_range_witness :
    ((randMatrix zeroRand 3 2).length = 3 ∧
      ∀ row ∈ randMatrix zeroRand 3 2, row.length = 2 ∧ ∀ v ∈ row, 0 ≤ v ∧ v < 1) ∧
    ((randMatrix zeroRand 4 2).length = 4 ∧
      ∀ row ∈ randMatrix zeroRand 4 2, row.length = 2 ∧ ∀ v ∈ row, 0 ≤ v ∧ v < 1) :=
  random_matrices_shape_and_range 3 2 4 zeroRand zeroRand
    (fun _ _ => ⟨le_refl 0, show (0 : ℚ) < 1 by norm_num⟩)
    (fun _ _ => ⟨le_refl 0, show (0 : ℚ) < 1 by norm_num⟩)

/-- Claim C7: every successful invocation writes the datasets `train`,
`test` and `neighbors`, in that order; the datasets `train_ids` and
`test_ids` are present exactly when predicates are enabled, and `test_ids`
is stored as a variable-length integer array per query. -/
theorem output_file_datasets (n p x : ℕ) (u : Bool) (rt rs : ℕ → ℕ → ℚ)
    (rnum : ℕ → ℕ) (rpick : ℕ → List ℕ) (f : List (String × Dataset))
    (h : generate_knn_dataset n p x u rt rs rnum rpick = Except.ok f) :
    f.map Prod.fst = ["train", "test", "neighbors"] ++
      (if u then ["train_ids", "test_ids"] else []) ∧
    ((∃ ids, ("train_ids", Dataset.intSeq ids) ∈ f) ↔ u = true) ∧
    ((∃ ids, ("test_ids", Dataset.vlenIntSeq ids) ∈ f) ↔ u = true) := by
  cases u with
  | false =>
    rw [generate_nopred_eq] at h
    cases hnb : knnLoopAux (randMatrix rt n p) [] [] false 0 (randMatrix rs x p) with
    | error e =>
      rw [hnb] at h
      exact Except.noConfusion h
    | ok nb =>
      rw [hnb] at h
      have hf := Except.ok.inj h
      subst hf
      refine ⟨by simp, ?_, ?_⟩ <;> simp
  | true =>
    rw [generate_pred_eq] at h
    cases htids : buildTestIds n x rnum rpick with
    | error e =>
      rw [htids] at h
      exact Except.noConfusion h
    | ok tids =>
      rw [htids] at h
      have h2 : Except.bind (knnLoopAux (randMatrix rt n p) (trainIdsOf n) tids true 0
          (randMatrix rs x p))
          (fun nb => Except.ok [("train", Dataset.floatMat (randMatrix rt n p)),
            ("test", Dataset.floatMat (randMatrix rs x p)),
            ("neighbors", Dataset.intMat nb),
            ("train_ids", Dataset.intSeq (trainIdsOf n)),
            ("test_ids", Dataset.vlenIntSeq tids)]) = Except.ok f := h
      cases hnb : knnLoopAux (randMatrix rt n p) (trainIdsOf n) tids true 0
          (randMatrix rs x p) with
      | error e =>
        rw [hnb] at h2
        exact Except.noConfusion h2
      | ok nb =>
        rw [hnb] at h2
        have hf := Except.ok.inj h2
        subst hf
        refine ⟨by simp, ?_, ?_⟩
        · exact ⟨fun _ => rfl, fun _ => ⟨trainIdsOf n, by simp⟩⟩
        · exact ⟨fun _ => rfl, fun _ => ⟨tids, by simp⟩⟩

/-- Witness for C7 at the concrete successful predicate run recorded in
`sampleFile100`. -/
theorem output_file_datasets_witness :
    (sampleFile100.map Prod.fst = ["train", "test", "neighbors"] ++
      (if true then ["train_ids", "test_ids"] else [])) ∧
    ((∃ ids, ("train_ids", Dataset.intSeq ids) ∈ sampleFile100) ↔ true = true) ∧
    ((∃ ids, ("test_ids", Dataset.vlenIntSeq ids) ∈ sampleFile100) ↔ true = true) :=
  output_file_datasets 100 1 1 true zeroRand zeroRand zeroNum zeroPick
    sampleFile100 (by rfl)

/-- Claim C8: without predicates and with `0 < n < 100`, the first query
already makes `torch.topk` request 100 entries from only `n` distances, so
the invocation raises and no output file is produced. -/
theorem knn_topk_error_small_train (n p x : ℕ) (rt rs : ℕ → ℕ → ℚ)
    (rnum : ℕ → ℕ) (rpick : ℕ → List ℕ) (h0 : 0 < n) (h1 : n < 100) (hx : 1 ≤ x) :
    generate_knn_dataset n p x false rt rs rnum rpick =
      Except.error "selected index k out of range" := by
  obtain ⟨m, rfl⟩ : ∃ m, x = m + 1 := ⟨x - 1, by omega⟩
  have htest : randMatrix rs (m + 1) p =
      ((List.range p).map (rs 0)) ::
        (List.range m).map (fun i => (List.range p).map (rs (Nat.succ i))) := by
    unfold randMatrix
    rw [List.range_succ_eq_map, List.map_cons, List.map_map]
    rfl
  have hq : ∀ q : List ℚ, queryStep (randMatrix rt n p) [] false [] q =
      Except.error "selected index k out of range" := by
    intro q
    unfold queryStep
    rw [if_neg (by simp), if_pos (by rw [randMatrix_length]; omega)]
    unfold topkSmallest
    rw [if_neg (by rw [List.length_map, randMatrix_length]; omega)]
  rw [generate_nopred_eq, htest, knnLoopAux, List.getD_nil, hq]
  rfl

/-- Witness for C8 at `n = 50`, `p = 1`, `x = 1`. -/
theorem knn_topk_error_small_train_witness :
    generate_knn_dataset 50 1 1 false zeroRand zeroRand zeroNum zeroPick =
      Except.error "selected index k out of range" :=
  knn_topk_error_small_train 50 1 1 zeroRand zeroRand zeroNum zeroPick
    (by norm_num) (by norm_num) (by norm_num)

/-- Claim C9: the per-query selection draws from the population
`1 .. floor(n/100)`, and whenever `floor(n/100) < 5` there is a random draw
(requesting more ids than the population holds, which covers the empty
population when `n < 100`) on which the selection raises, so the invocation
fails before any output is written. -/
theorem group_pool_and_choice_error (n p x : ℕ) (rt rs : ℕ → ℕ → ℚ)
    (hn : n / 100 < 5) (hx : 1 ≤ x) :
    (∀ g ∈ groupPool n, 1 ≤ g ∧ g ≤ n / 100) ∧
    ∃ rnum rpick e, generate_knn_dataset n p x true rt rs rnum rpick =
      Except.error e := by
  constructor
  · intro g hg
    rw [groupPool, List.mem_range'_1] at hg
    omega
  · refine ⟨fun _ => 4, fun _ => [],
      "Cannot take a larger sample than population when replace is False", ?_⟩
    obtain ⟨m, rfl⟩ : ∃ m, x = m + 1 := ⟨x - 1, by omega⟩
    have hch : npChoice (groupPool n) (1 + 4 % 5) [] =
        Except.error "Cannot take a larger sample than population when replace is False" := by
      unfold npChoice
      rw [if_pos (by rw [groupPool_length]; omega)]
    have hb : buildTestIds n (m + 1) (fun _ => 4) (fun _ => []) =
        Except.error "Cannot take a larger sample than population when replace is False" := by
      unfold buildTestIds buildTestIdsAux
      rw [hch]
      rfl
    rw [generate_pred_eq, hb]
    rfl

/-- Witness for C9 at `n = 250` (two groups, fewer than five), `x = 1`. -/
theorem group_pool_and_choice_error_witness :
    (∀ g ∈ groupPool 250, 1 ≤ g ∧ g ≤ 250 / 100) ∧
    ∃ rnum rpick e, generate_knn_dataset 250 1 1 true zeroRand zeroRand rnum rpick =
      Except.error e :=
  group_pool_and_choice_error 250 1 1 zeroRand zeroRand (by norm_num) (by norm_num)

/-- Claim C10: without predicates and with `n ≥ 100` train vectors, the
empty-eligible branch is unreachable: the run succeeds with one row per
query and every reported entry is a genuine index in `[0, n)`, so the
sentinel −1 never appears in the neighbors output. -/
theorem no_sentinel_without_predicates (n p x : ℕ) (rt rs : ℕ → ℕ → ℚ)
    (rnum : ℕ → ℕ) (rpick : ℕ → List ℕ) (hn : 100 ≤ n) :
    ∃ f, generate_knn_dataset n p x false rt rs rnum rpick = Except.ok f ∧
      (neighborsOf f).length = x ∧
      ∀ row ∈ neighborsOf f, ∀ e ∈ row, 0 ≤ e ∧ e < (n : ℤ) ∧ e ≠ -1 := by
  have htl : (randMatrix rt n p).length = n := randMatrix_length rt n p
  obtain ⟨rows, hrows, hlen, hprops⟩ :=
    knnLoopAux_nopred (randMatrix rt n p) [] [] (by omega) (randMatrix rs x p) 0
  refine ⟨[("train", Dataset.floatMat (randMatrix rt n p)),
    ("test", Dataset.floatMat (randMatrix rs x p)),
    ("neighbors", Dataset.intMat rows)], ?_, ?_, ?_⟩
  · rw [generate_nopred_eq, hrows]
    rfl
  · show rows.length = x
    rw [hlen, randMatrix_length]
  · show ∀ row ∈ rows, ∀ e ∈ row, 0 ≤ e ∧ e < (n : ℤ) ∧ e ≠ -1
    intro row hrow e he
    obtain ⟨-, -, hre⟩ := hprops row hrow
    obtain ⟨he0, he1⟩ := hre e he
    rw [htl] at he1
    exact ⟨he0, he1, by omega⟩

/-- Witness for C10 at `n = 100`, `p = 1`, `x = 1` with the all-zero
streams. -/
theorem no_sentinel_without_predicates_witness :
    ∃ f, generate_knn_dataset 100 1 1 false zeroRand zeroRand zeroNum zeroPick =
        Except.ok f ∧
      (neighborsOf f).length = 1 ∧
      ∀ row ∈ neighborsOf f, ∀ e ∈ row, 0 ≤ e ∧ e < ((100 : ℕ) : ℤ) ∧ e ≠ -1 :=
  no_sentinel_without_predicates 100 1 1 zeroRand zeroRand zeroNum zeroPick
    (by norm_num)
